import Mathlib

/-!
A verification development for the SceneEval geometric scene-evaluation
engine.  The Python metrics (`src/metrics/collision.py`,
`src/metrics/out_of_bound.py`, `src/metrics/navigability.py`,
`src/metrics/opening_clearance.py`) are shallowly embedded as executable
Lean definitions: numpy arrays become flat lists with explicit
dimensions, rational/real arithmetic replaces floating point, external
library calls (trimesh collision queries, ray casts, cv2 rasterization)
become explicit functional parameters that carry the library's
documented contract as hypotheses.
-/

namespace SceneEval

/-! ## Basic geometric prelude: 3-vectors and 3x3 matrices over a field -/

/-- A 3-vector with components of type `α`. -/
structure Vec3 (α : Type) where
  x : α
  y : α
  z : α
  deriving DecidableEq, Repr

namespace Vec3

def add {α : Type} [Add α] (a b : Vec3 α) : Vec3 α := ⟨a.x + b.x, a.y + b.y, a.z + b.z⟩

def sub {α : Type} [Sub α] (a b : Vec3 α) : Vec3 α := ⟨a.x - b.x, a.y - b.y, a.z - b.z⟩

def smul {α : Type} [Mul α] (c : α) (v : Vec3 α) : Vec3 α := ⟨c * v.x, c * v.y, c * v.z⟩

def dot {α : Type} [Mul α] [Add α] (a b : Vec3 α) : α := a.x * b.x + a.y * b.y + a.z * b.z

def zero {α : Type} [Zero α] : Vec3 α := ⟨0, 0, 0⟩

end Vec3

/-- A 3x3 matrix over `α`, stored as three rows. -/
structure Mat3 (α : Type) where
  r0 : Vec3 α
  r1 : Vec3 α
  r2 : Vec3 α
  deriving DecidableEq, Repr

namespace Mat3

/-- Matrix-vector product (numpy `M @ v`). -/
def mulVec {α : Type} [Mul α] [Add α] (M : Mat3 α) (v : Vec3 α) : Vec3 α :=
  ⟨M.r0.dot v, M.r1.dot v, M.r2.dot v⟩

/-- Transpose. -/
def transpose {α : Type} (M : Mat3 α) : Mat3 α :=
  ⟨⟨M.r0.x, M.r1.x, M.r2.x⟩, ⟨M.r0.y, M.r1.y, M.r2.y⟩, ⟨M.r0.z, M.r1.z, M.r2.z⟩⟩

def identity {α : Type} [Zero α] [One α] : Mat3 α := ⟨⟨1, 0, 0⟩, ⟨0, 1, 0⟩, ⟨0, 0, 1⟩⟩

end Mat3

/-! ## numpy images as flat buffers

A numpy `uint8` array of shape `(h, w)` is a flat buffer of `h*w`
entries; `size` is `h*w`, `count_nonzero`, `sum`, `|=` (bitwise or) and
`zeros_like` act elementwise on the buffer. -/

/-- A 2D numpy array embedded as its flat data buffer plus dimensions. -/
structure NpImage where
  rows : Nat
  cols : Nat
  data : List Nat
  deriving DecidableEq, Repr

namespace NpImage

/-- numpy `.size`: total number of entries. -/
def size (m : NpImage) : Nat := m.rows * m.cols

/-- numpy `np.count_nonzero`. -/
def countNonzero (m : NpImage) : Nat := m.data.countP (fun v => v ≠ 0)

/-- numpy `.sum()`. -/
def sumPix (m : NpImage) : Nat := m.data.sum

/-- numpy `np.zeros_like`. -/
def zerosLike (m : NpImage) : NpImage :=
  ⟨m.rows, m.cols, List.replicate m.data.length 0⟩

/-- numpy `a | b` (elementwise bitwise or, shapes assumed equal). -/
def npOr (a b : NpImage) : NpImage :=
  ⟨a.rows, a.cols, List.zipWith Nat.lor a.data b.data⟩

/-- Shape and buffer-length agreement between two arrays. -/
def SameShape (a b : NpImage) : Prop :=
  a.rows = b.rows ∧ a.cols = b.cols ∧ a.data.length = b.data.length

/-- Well-formedness: the flat buffer has exactly `rows*cols` entries. -/
def WF (m : NpImage) : Prop := m.data.length = m.rows * m.cols

end NpImage

/-! ## Out-of-bound metric (`src/metrics/out_of_bound.py`)

`OutOfBoundMetric.run` samples points on each object's mesh, casts a ray
straight down from each sample, and compares the fraction of samples
whose ray hits the unioned floor mesh against a threshold.  The trimesh
calls (`t_obj.sample`, `t_floor.ray.intersects_location`) are external:
the sampled points arrive as an explicit input list (they are drawn from
trimesh's global random state; `run` passes no seed and accepts none),
and the downward single-hit ray query is an explicit predicate on
points. -/

structure OutOfBoundMetricConfig where
  threshold : ℚ := 99 / 100
  volume_sample_multiplier : ℚ := 5000
  min_sample_points : ℚ := 1000

/-- Python `int(...)` on a rational: truncation toward zero. -/
def pyInt (q : ℚ) : ℤ := if 0 ≤ q then ⌊q⌋ else ⌈q⌉

/-- `num_samples = int(max(volume * volume_sample_multiplier, min_sample_points))`
(line 81 of `out_of_bound.py`). -/
def numSamples (cfg : OutOfBoundMetricConfig) (volume : ℚ) : ℤ :=
  pyInt (max (volume * cfg.volume_sample_multiplier) cfg.min_sample_points)

/-- Per-object evaluation record built by `OutOfBoundMetric.run`. -/
structure ObjOutOfBoundEval where
  num_sampled_points : Nat
  num_out_of_bound : Nat
  ratio_in_bound : ℚ
  out_of_bound : Bool
  deriving DecidableEq, Repr

/-- The per-object body of `OutOfBoundMetric.run` (lines 79-99).

`sample_points` is the point list returned by `t_obj.sample(num_samples)`
(external randomized sampling; no seed is passed).  `intersectsLocation`
is the external trimesh ray query
`t_floor.ray.intersects_location(origins, down, multiple_hits=False)`
restricted to its hit-point list: an opaque function of the ray origins;
its documented single-hit contract (at most one hit point per ray) is
carried as a hypothesis where needed, not baked into the embedding.
The Python `assert len(ray_hit_pts) <= len(sample_points)` becomes an
`Except.error`: it surfaces as an `AssertionError` rather than clamping. -/
def outOfBoundEvalObj (cfg : OutOfBoundMetricConfig)
    (sample_points : List (Vec3 ℚ))
    (intersectsLocation : List (Vec3 ℚ) → List (Vec3 ℚ)) :
    Except String ObjOutOfBoundEval :=
  let ray_hit_pts := intersectsLocation sample_points
  if ray_hit_pts.length ≤ sample_points.length then
    let num_out_of_bound := sample_points.length - ray_hit_pts.length
    let ratio_in_bound : ℚ := 1 - (num_out_of_bound : ℚ) / (sample_points.length : ℚ)
    .ok { num_sampled_points := sample_points.length
          num_out_of_bound := num_out_of_bound
          ratio_in_bound := ratio_in_bound
          out_of_bound := decide (ratio_in_bound < cfg.threshold) }
  else
    .error "AssertionError: len(ray_hit_pts) <= len(sample_points)"

/-! ## Collision metric (`src/metrics/collision.py`)

`CollisionMetric.run` walks the object list, keeps exactly one object in
the trimesh `CollisionManager` at a time, and tests each later object
against it, so every unordered pair is tested exactly once, in order.
The two `fcl` intersection queries are external oracles: `firstCheck a b`
is `in_collision_single(t_other_obj, return_data=True)` with manager
contents `{a}` and `contacts a b` its contact-point list; the moved copy
of `b` is determined by `b` and the applied translation vector, so the
second boolean query becomes `secondCheck a b translation`.  The
direction arithmetic (lines 80-86) is embedded over `ℝ`. -/

structure CollisionMetricConfig where
  move_direction_amount : ℝ := 5 / 1000

structure CollisionEntry where
  in_collision : Bool
  colliding_with : List String
  deriving DecidableEq, Repr

structure CollisionScene where
  objIds : List String
  centroid : String → Vec3 ℝ
  firstCheck : String → String → Bool
  contacts : String → String → List (Vec3 ℝ)
  secondCheck : String → String → Vec3 ℝ → Bool

/-- Componentwise division by a scalar (numpy broadcast `v / c`). -/
noncomputable def Vec3.divScalar (v : Vec3 ℝ) (c : ℝ) : Vec3 ℝ := ⟨v.x / c, v.y / c, v.z / c⟩

noncomputable def vecSum (l : List (Vec3 ℝ)) : Vec3 ℝ := l.foldl Vec3.add Vec3.zero

/-- `np.mean(contact_pts, axis=0)`. -/
noncomputable def meanPts (l : List (Vec3 ℝ)) : Vec3 ℝ := (vecSum l).divScalar (l.length : ℝ)

/-- `np.linalg.norm` of a 3-vector. -/
noncomputable def vecNorm (v : Vec3 ℝ) : ℝ := Real.sqrt (v.x ^ 2 + v.y ^ 2 + v.z ^ 2)

/-- Lines 83-86 of `collision.py`: the separation direction
`t_other_obj.centroid - np.mean(contact_pts, axis=0)` is divided by its
norm — with no guard against a zero norm — and scaled by
`move_direction_amount`; the result is the translation applied to the
moved copy of the other object. -/
noncomputable def moveTranslation (cfg : CollisionMetricConfig) (S : CollisionScene)
    (a b : String) : Vec3 ℝ :=
  let diff := (S.centroid b).sub (meanPts (S.contacts a b))
  let move_direction := diff.divScalar (vecNorm diff)
  Vec3.smul cfg.move_direction_amount move_direction

/-- Lines 74-92: a pair is recorded exactly when the first intersection
test is positive and the re-run test on the translated copy is also
positive. -/
noncomputable def collidesPair (cfg : CollisionMetricConfig) (S : CollisionScene)
    (a b : String) : Bool :=
  S.firstCheck a b && S.secondCheck a b (moveTranslation cfg S a b)

/-- The ordered pairs `(ids[i], ids[j])`, `i < j`, in the order the double
loop of `run` visits them. -/
def orderedPairs : List String → List (String × String)
  | [] => []
  | x :: xs => (xs.map (fun y => (x, y))) ++ orderedPairs xs

/-- `collision_results[k]["colliding_with"].append(v)` together with
`collision_results[k]["in_collision"] = True`. -/
def appendTo (res : String → CollisionEntry) (k v : String) :
    String → CollisionEntry :=
  fun s =>
    if s = k then { in_collision := true, colliding_with := (res k).colliding_with ++ [v] }
    else res s

/-- Lines 93-96: both directions of a recorded pair are updated, first
the earlier object's entry, then the later object's. -/
def recordPair (res : String → CollisionEntry) (a b : String) :
    String → CollisionEntry :=
  appendTo (appendTo res a b) b a

noncomputable def collisionStep (cfg : CollisionMetricConfig) (S : CollisionScene)
    (res : String → CollisionEntry) (p : String × String) :
    String → CollisionEntry :=
  if collidesPair cfg S p.1 p.2 then recordPair res p.1 p.2 else res

/-- `CollisionMetric.run` (lines 52-104) restricted to the per-object
collision records: every entry starts as `(False, [])` and the double
loop folds over the ordered pairs. -/
noncomputable def collisionRun (cfg : CollisionMetricConfig) (S : CollisionScene) :
    String → CollisionEntry :=
  (orderedPairs S.objIds).foldl (collisionStep cfg S)
    (fun _ => { in_collision := false, colliding_with := [] })

/-- The partners object `x` accumulates while a pair list is processed. -/
noncomputable def partnersIn (cfg : CollisionMetricConfig) (S : CollisionScene) (x : String)
    (l : List (String × String)) : List String :=
  (l.filter (fun p => collidesPair cfg S p.1 p.2 &&
    (decide (p.1 = x) || decide (p.2 = x)))).map
    (fun p => if p.1 = x then p.2 else p.1)

/-! ## Navigability metric (`src/metrics/navigability.py`)

`NavigabilityMetric.run` rasterizes the floor into channel 0 of an RGB
image (floor color `[255,0,0]`), erodes it, overwrites object footprints
with a color whose channel 0 is `0`, takes channel 0 as the binary
walkable map, and runs `cv2.connectedComponentsWithStats(...,
connectivity=8)` on it.  The cv2 call is external; its outputs
`num_labels` and the label image arrive as inputs, with cv2's documented
contract (label `0` exactly on zero pixels, labels `1..num_labels-1`
each non-empty, 8-connected components) as hypotheses.  The loop over
labels `1..num_labels-1` (lines 224-251) and the rate computation are
embedded below. -/

/-- Lines 228-229: `mask = np.zeros_like(walkable_map); mask[labels ==
label] = 255` (labels and the walkable map have the same shape). -/
def maskOf (walkable labels : NpImage) (label : Nat) : NpImage :=
  ⟨walkable.rows, walkable.cols,
    labels.data.map (fun v => if v = label then 255 else 0)⟩

/-- Lines 224-239: the strict-improvement fold selecting the connected
component of largest mask sum over labels `1..num_labels-1` (Python
`range(1, num_labels)`), starting from `np.zeros_like(walkable_map)`. -/
def largestComponentMask (walkable labels : NpImage) (num_labels : Nat) :
    NpImage :=
  (List.range' 1 (num_labels - 1)).foldl
    (fun walkable_map_max label =>
      let mask := maskOf walkable labels label
      if walkable_map_max.sumPix < mask.sumPix then mask else walkable_map_max)
    (NpImage.zerosLike walkable)

/-- Lines 225-251: `rate = walkable_map_max.sum() / walkable_map.sum()`
when `num_labels > 1`, else `rate = 0.`. -/
def navigabilityRate (walkable labels : NpImage) (num_labels : Nat) : ℚ :=
  if 1 < num_labels then
    ((largestComponentMask walkable labels num_labels).sumPix : ℚ) /
      (walkable.sumPix : ℚ)
  else 0

/-- Number of pixels carrying a given component label. -/
def countLabel (labels : NpImage) (label : Nat) : Nat :=
  labels.data.countP (fun v => v = label)

/-- Pixel count of the largest labeled component (`0` when there are no
components). -/
def maxCompCount (labels : NpImage) (num_labels : Nat) : Nat :=
  ((List.range' 1 (num_labels - 1)).map (countLabel labels)).foldl max 0

/-! ## Opening clearance metric (`src/metrics/opening_clearance.py`)

`OpeningClearanceMetric` works per opening and per checked side
direction: type-dependent extrusion distance
(`_get_opening_extrude_distance`), oriented-bounding-box interference
test (`_get_objs_interfering_with_opening_one_side`), projection of the
interfering meshes onto the opening plane
(`_project_interfering_objs_to_opening_2d`) and the occlusion summary
(`_summarize_occlusion_info`).  Scene accessors (bbox centers, extents,
transforms, mesh vertices/faces) are explicit inputs; scene transforms
are rigid (spec section 6), so `np.linalg.inv` of a transform is its
rigid inverse.  `cv2.fillConvexPoly` is an external rasterizer passed as
a function parameter.  `src/spatial/bounding_box.py` is not under
`src/`, so the two `BoundingBox` operations the metric calls are
modelled from the spec (section 4.1). -/

structure OpeningClearanceMetricConfig where
  within_room_point_offset : ℚ := 1 / 10
  map_pixel_per_meter : ℚ := 100
  door_check : Bool := true
  door_room_side_only : Bool := true
  door_use_width_as_extrude : Bool := true
  door_extrude_distance : ℚ := 1
  window_check : Bool := true
  window_room_side_only : Bool := true
  window_front_extrude_distance : ℚ := 1 / 2

/-- Python `str.startswith`, as a character-list prefix test. -/
def pyStartsWith (s pre : String) : Bool := pre.data.isPrefixOf s.data

/-- `_get_opening_extrude_distance` (lines 103-134): door/window type
from the ID prefix, `ValueError` for any other prefix (the message
interpolates the computed type, which is Python `None` there), door
extrusion from its own width (extents component 0) or the configured
distance, window extrusion from the configured distance, plus half the
opening thickness (extents component 1) when requested. -/
def getOpeningExtrudeDistance (cfg : OpeningClearanceMetricConfig)
    (extents : String → ℚ × ℚ × ℚ) (opening_id : String)
    (with_thickness : Bool) : Except String ℚ :=
  let opening_type : Option String :=
    if pyStartsWith opening_id "door" then some "door"
    else if pyStartsWith opening_id "window" then some "window"
    else none
  match opening_type with
  | none => .error "Unsupported opening type: None"
  | some t =>
    let extrude_distance : ℚ :=
      if t = "door" then
        if cfg.door_use_width_as_extrude then (extents opening_id).1
        else cfg.door_extrude_distance
      else cfg.window_front_extrude_distance
    let extrude_distance :=
      if with_thickness then extrude_distance + (extents opening_id).2.1 / 2
      else extrude_distance
    .ok extrude_distance

/-- Modelled from the spec: configuration of the oriented-bounding-box
primitive (`src/spatial/bounding_box.py` is not under `src/`); a single
containment margin added to the half-size on each axis (spec section
4.1), default `0`. -/
structure BoundingBoxConfig where
  margin : ℚ := 0
  deriving DecidableEq, Repr

/-- The oriented bounding box: center, half-size and a 3x3 rotation whose
columns map local axes to world. -/
structure BoundingBox where
  center : Vec3 ℚ
  half_size : Vec3 ℚ
  axes : Mat3 ℚ
  cfg : BoundingBoxConfig := {}
  deriving Repr

def Vec3.neg (v : Vec3 ℚ) : Vec3 ℚ := ⟨-v.x, -v.y, -v.z⟩

/-- Modelled from the spec: `BoundingBox.sample_points`
(`src/spatial/bounding_box.py` is not under `src/`).  The spec requires
a deterministic or randomized point cloud covering the box
surface/volume; modelled as the eight corners plus the center. -/
def BoundingBox.sample_points (bb : BoundingBox) : List (Vec3 ℚ) :=
  let corner := fun (sx sy sz : ℚ) =>
    bb.center.add (bb.axes.mulVec
      ⟨sx * bb.half_size.x, sy * bb.half_size.y, sz * bb.half_size.z⟩)
  [corner (-1) (-1) (-1), corner (-1) (-1) 1, corner (-1) 1 (-1),
   corner (-1) 1 1, corner 1 (-1) (-1), corner 1 (-1) 1,
   corner 1 1 (-1), corner 1 1 1, bb.center]

/-- Modelled from the spec: `BoundingBox.contains` for a single point
(`src/spatial/bounding_box.py` is not under `src/`).  The point is taken
into the box's local frame by the inverse rigid transform (transposed
rotation) and compared per axis against plus/minus half-size plus the
configured margin; boundary points count as contained at margin `0`. -/
def BoundingBox.containsPt (bb : BoundingBox) (p : Vec3 ℚ) : Bool :=
  let lp := bb.axes.transpose.mulVec (p.sub bb.center)
  let hx := bb.half_size.x + bb.cfg.margin
  let hy := bb.half_size.y + bb.cfg.margin
  let hz := bb.half_size.z + bb.cfg.margin
  decide (-hx ≤ lp.x) && decide (lp.x ≤ hx) &&
  decide (-hy ≤ lp.y) && decide (lp.y ≤ hy) &&
  decide (-hz ≤ lp.z) && decide (lp.z ≤ hz)

/-- A rigid transform: rotation plus translation (the `4x4 rigid
transform` of the engine input contract, spec section 6). -/
structure Transform where
  R : Mat3 ℚ
  t : Vec3 ℚ
  deriving Repr

/-- Apply a rigid transform to a point (the action of the homogeneous
4x4 matrix of `_get_vertices_in_frame`). -/
def Transform.applyPt (T : Transform) (p : Vec3 ℚ) : Vec3 ℚ :=
  (T.R.mulVec p).add T.t

/-- `np.linalg.inv` of a rigid 4x4 transform
(`_get_world_to_opening_matrix`, lines 185-199): the rigid inverse
`(Rᵀ, -Rᵀ t)`. -/
def Transform.inv (T : Transform) : Transform :=
  ⟨T.R.transpose, (T.R.transpose.mulVec T.t).neg⟩

/-- Scene accessors used by the opening clearance metric. -/
structure OpeningScene where
  archTransform : String → Transform
  archBBoxCenter : String → Vec3 ℚ
  archExtents : String → ℚ × ℚ × ℚ
  archVertices : String → List (Vec3 ℚ)
  objVertices : String → List (Vec3 ℚ)
  objFaces : String → List (Nat × Nat × Nat)

/-- `_get_objs_interfering_with_opening_one_side` (lines 136-183): build
the clearance box centered `extrude/2` in front of the opening along the
side direction, with half-size (half width, half extrusion, half
height) and the opening's axes, then keep every object with at least one
sampled bounding-box point contained in it. -/
def getObjsInterferingOneSide (cfg : OpeningClearanceMetricConfig)
    (S : OpeningScene) (opening_id : String) (side : Vec3 ℚ)
    (objBBoxes : List (String × BoundingBox)) (bbcfg : BoundingBoxConfig) :
    Except String (List String) :=
  match getOpeningExtrudeDistance cfg S.archExtents opening_id true with
  | .error e => .error e
  | .ok extrude_distance =>
    let opening_bbox_center := S.archBBoxCenter opening_id
    let ext := S.archExtents opening_id
    let clearance_bbox_center :=
      opening_bbox_center.add (Vec3.smul (extrude_distance / 2) side)
    let clearance_bbox : BoundingBox :=
      ⟨clearance_bbox_center, ⟨ext.1 / 2, extrude_distance / 2, ext.2.2 / 2⟩,
        (S.archTransform opening_id).R, bbcfg⟩
    .ok ((objBBoxes.filter
      (fun ob => (ob.2.sample_points).any clearance_bbox.containsPt)).map
      Prod.fst)

/-- Componentwise `np.min(vertices, axis=0)` (`none` on an empty array,
where numpy raises). -/
def vecCompMin : List (Vec3 ℚ) → Option (Vec3 ℚ)
  | [] => none
  | v :: t => some (t.foldl
      (fun acc w => ⟨min acc.x w.x, min acc.y w.y, min acc.z w.z⟩) v)

/-- Componentwise `np.max(vertices, axis=0)`. -/
def vecCompMax : List (Vec3 ℚ) → Option (Vec3 ℚ)
  | [] => none
  | v :: t => some (t.foldl
      (fun acc w => ⟨max acc.x w.x, max acc.y w.y, max acc.z w.z⟩) v)

/-- `int(np.ceil(q))` for the nonnegative image dimensions. -/
def pyCeil (q : ℚ) : ℤ := ⌈q⌉

/-- `_scene_to_image_coordinates` (lines 218-235): shift by the opening
minimum, flip the vertical axis, scale by pixels-per-meter, truncate to
`int32`. -/
def sceneToImageCoordinates (cfg : OpeningClearanceMetricConfig)
    (uw : ℚ × ℚ) (uvwMin uvwMax : Vec3 ℚ) : ℤ × ℤ :=
  (pyInt ((uw.1 - uvwMin.x) * cfg.map_pixel_per_meter),
   pyInt ((uvwMax.z - uw.2) * cfg.map_pixel_per_meter))

/-- Triangle vertex lookup `vertices[faces]` (indices are valid for a
well-formed mesh; out-of-range reads default to the origin). -/
def vGet (l : List (Vec3 ℚ)) (i : Nat) : Vec3 ℚ := l.getD i ⟨0, 0, 0⟩

/-- Lines 293-306: the triangles of one interfering object whose local
depth range overlaps the extrusion band on the side being tested
(front side `v ∈ [-extrude, 0]`, back side `v ∈ [0, extrude]`). -/
def objInterferingFaces (S : OpeningScene) (opening_id obj_id : String)
    (side : Vec3 ℚ) (extrude : ℚ) : List (Nat × Nat × Nat) :=
  let w2o := (S.archTransform opening_id).inv
  let verts_uvw := (S.objVertices obj_id).map w2o.applyPt
  let side_uvw := w2o.R.mulVec side
  (S.objFaces obj_id).filter (fun f =>
    let a := vGet verts_uvw f.1
    let b := vGet verts_uvw f.2.1
    let c := vGet verts_uvw f.2.2
    let minv := min a.y (min b.y c.y)
    let maxv := max a.y (max b.y c.y)
    if side_uvw.y < 0 then decide (minv ≤ 0) && decide (-extrude ≤ maxv)
    else decide (minv ≤ extrude) && decide (0 ≤ maxv))

/-- `_project_interfering_objs_to_opening_2d` (lines 237-344): set up the
opening-frame image, then for each interfering object keep the triangles
within the extrusion band and, if any remain, rasterize their (u, w)
projections with the external `fillConvexPoly` into a fresh occupancy
map stored under the object's ID. -/
def projectInterferingObjs (cfg : OpeningClearanceMetricConfig)
    (S : OpeningScene) (fillConvexPoly : NpImage → List (ℤ × ℤ) → NpImage)
    (opening_id : String) (interfering : List String) (side : Vec3 ℚ) :
    Except String (NpImage × List (String × NpImage)) :=
  let w2o := (S.archTransform opening_id).inv
  let opening_vertices_uvw := (S.archVertices opening_id).map w2o.applyPt
  match vecCompMin opening_vertices_uvw, vecCompMax opening_vertices_uvw with
  | some uvwMin, some uvwMax =>
    match getOpeningExtrudeDistance cfg S.archExtents opening_id true with
    | .error e => .error e
    | .ok extrude =>
      let image_width := (pyCeil ((uvwMax.x - uvwMin.x) * cfg.map_pixel_per_meter)).toNat
      let image_height := (pyCeil ((uvwMax.z - uvwMin.z) * cfg.map_pixel_per_meter)).toNat
      let opening_map : NpImage :=
        ⟨image_height, image_width, List.replicate (image_height * image_width) 0⟩
      let maps := interfering.filterMap (fun obj_id =>
        let verts_uvw := (S.objVertices obj_id).map w2o.applyPt
        let interfering_faces := objInterferingFaces S opening_id obj_id side extrude
        if interfering_faces.isEmpty then none
        else
          let occ := interfering_faces.foldl (fun m f =>
            let a := vGet verts_uvw f.1
            let b := vGet verts_uvw f.2.1
            let c := vGet verts_uvw f.2.2
            fillConvexPoly m
              [sceneToImageCoordinates cfg (a.x, a.z) uvwMin uvwMax,
               sceneToImageCoordinates cfg (b.x, b.z) uvwMin uvwMax,
               sceneToImageCoordinates cfg (c.x, c.z) uvwMin uvwMax])
            (NpImage.zerosLike opening_map)
          some (obj_id, occ))
      .ok (opening_map, maps)
  | _, _ => .error "ValueError: zero-size array to reduction operation"

/-- The occlusion summary record of `_summarize_occlusion_info`. -/
structure OcclusionInfo where
  opening_occluded : Bool
  total_occlusion : ℚ
  object_occlusions : List (String × ℚ)
  deriving DecidableEq, Repr

/-- `_summarize_occlusion_info` (lines 346-396): `opening_occluded` is
`len(occupancy_maps) > 0`; with no maps the initial record (`False`,
`0.0`, `{}`) is returned; otherwise each object's occlusion percentage
is its nonzero-pixel count over the first map's size and the total is
the nonzero-pixel count of the pixel-wise OR of all maps over the same
size. -/
def summarizeOcclusionInfo (occupancy_maps : List (String × NpImage)) :
    OcclusionInfo :=
  match occupancy_maps with
  | [] => ⟨false, 0, []⟩
  | (_, m0) :: _ =>
    let opening_size := m0.size
    let object_occlusions := occupancy_maps.map
      (fun km => (km.1, (km.2.countNonzero : ℚ) / (opening_size : ℚ)))
    let combined := occupancy_maps.foldl (fun acc km => acc.npOr km.2)
      (NpImage.zerosLike m0)
    ⟨true, (combined.countNonzero : ℚ) / (opening_size : ℚ), object_occlusions⟩

/-- Per-side result record stored by `_process_openings` (lines
445-451), restricted to the two fields the claims concern. -/
structure SideResult where
  interfering_obj_ids : List String
  occlusion_info : OcclusionInfo
  deriving Repr

/-- The per-direction body of `_process_openings` (lines 427-451):
interference test, 2D projection, occlusion summary. -/
def processOneSide (cfg : OpeningClearanceMetricConfig) (S : OpeningScene)
    (fillConvexPoly : NpImage → List (ℤ × ℤ) → NpImage)
    (opening_id : String) (direction : Vec3 ℚ)
    (objBBoxes : List (String × BoundingBox)) (bbcfg : BoundingBoxConfig) :
    Except String SideResult :=
  match getObjsInterferingOneSide cfg S opening_id direction objBBoxes bbcfg with
  | .error e => .error e
  | .ok interfering_obj_ids =>
    match projectInterferingObjs cfg S fillConvexPoly opening_id
        interfering_obj_ids direction with
    | .error e => .error e
    | .ok (_, occupancy_maps) =>
      .ok ⟨interfering_obj_ids, summarizeOcclusionInfo occupancy_maps⟩

/-- A 3-4-5 rotation about the vertical axis (cos 3/5, sin 4/5), used as
the pose of the concrete interfering-but-not-projecting object. -/
def cexR : Mat3 ℚ := ⟨⟨3/5, -4/5, 0⟩, ⟨4/5, 3/5, 0⟩, ⟨0, 0, 1⟩⟩

/-- A concrete one-opening, one-object scene: the door `door_0` sits at
the origin with identity transform (width 1, thickness 1/10, height 2,
bbox center (0,0,1)); the object `obj_0` is a two-triangle diagonal
plate rotated by `cexR` and translated to (0,-1/2,1/2), whose posed mesh
lies strictly behind the opening plane (all `v`-coordinates positive)
while its posed default-pose bounding box pokes a corner into the
clearance region in front of the door. -/
def cexScene : OpeningScene where
  archTransform := fun _ => ⟨Mat3.identity, ⟨0, 0, 0⟩⟩
  archBBoxCenter := fun _ => ⟨0, 0, 1⟩
  archExtents := fun _ => (1, 1/10, 2)
  archVertices := fun _ => [⟨-1/2, -1/20, 0⟩, ⟨1/2, 1/20, 2⟩]
  objVertices := fun _ =>
    [⟨-18/25, 1/25, 1/2⟩, ⟨-37/50, 9/50, 11/20⟩,
     ⟨3/5, 3/10, 3/5⟩, ⟨23/50, 7/25, 1/2⟩]
  objFaces := fun _ => [(0, 1, 2), (2, 3, 0)]

/-- The object bounding box of `cexScene`: the default-pose box
`[0,1] x [0,1] x [0,1/10]` carried by the object's pose, whose corner
`(0,-1/2,1/2)` lies inside the door's clearance box. -/
def cexBBoxes : List (String × BoundingBox) :=
  [("obj_0", ⟨⟨-1/10, 1/5, 11/20⟩, ⟨1/2, 1/2, 1/20⟩, cexR, {}⟩)]

/-- Concrete default-pose extents accessor (width 2, thickness 1/10,
height 3 for every element) used to instantiate the extrusion-distance
theorem. -/
def wExt : String → ℚ × ℚ × ℚ := fun _ => (2, 1 / 10, 3)

/-- A concrete two-object scene whose collision oracles always answer
positively; used to instantiate the collision theorems. -/
noncomputable def wScene : CollisionScene where
  objIds := ["A", "B"]
  centroid := fun _ => Vec3.zero
  firstCheck := fun _ _ => true
  contacts := fun _ _ => [⟨1, 0, 0⟩]
  secondCheck := fun _ _ _ => true

/-! ## Theorems -/

/-! ### Helper lemmas about the collision fold -/

theorem recordPair_fst (res : String → CollisionEntry) (a b : String) (hab : a ≠ b) :
    recordPair res a b a =
      { in_collision := true, colliding_with := (res a).colliding_with ++ [b] } := by
  simp [recordPair, appendTo, hab]

theorem recordPair_snd (res : String → CollisionEntry) (a b : String) (hab : a ≠ b) :
    recordPair res a b b =
      { in_collision := true, colliding_with := (res b).colliding_with ++ [a] } := by
  simp [recordPair, appendTo, Ne.symm hab]

theorem recordPair_other (res : String → CollisionEntry) (a b x : String)
    (hxa : x ≠ a) (hxb : x ≠ b) : recordPair res a b x = res x := by
  simp [recordPair, appendTo, hxa, hxb]

theorem mem_orderedPairs (a b : String) (l : List String)
    (h : (a, b) ∈ orderedPairs l) : a ∈ l ∧ b ∈ l := by
  induction l with
  | nil => simp [orderedPairs] at h
  | cons x xs ih =>
    simp only [orderedPairs, List.mem_append, List.mem_map] at h
    rcases h with ⟨y, hy, hxy⟩ | h
    · injection hxy with h1 h2
      subst h1
      subst h2
      exact ⟨List.mem_cons_self .., List.mem_cons_of_mem _ hy⟩
    · obtain ⟨ha, hb⟩ := ih h
      exact ⟨List.mem_cons_of_mem _ ha, List.mem_cons_of_mem _ hb⟩

theorem orderedPairs_ne (l : List String) (hnd : l.Nodup) :
    ∀ p ∈ orderedPairs l, p.1 ≠ p.2 := by
  induction l with
  | nil => simp [orderedPairs]
  | cons x xs ih =>
    intro p hp
    simp only [orderedPairs, List.mem_append, List.mem_map] at hp
    rcases hp with ⟨y, hy, rfl⟩ | hp
    · intro h
      exact (List.nodup_cons.mp hnd).1 (by rw [show x = y from h]; exact hy)
    · exact ih (List.nodup_cons.mp hnd).2 p hp

theorem orderedPairs_antisymm (l : List String) (hnd : l.Nodup) (a b : String)
    (hab : (a, b) ∈ orderedPairs l) : (b, a) ∉ orderedPairs l := by
  induction l with
  | nil => simp [orderedPairs] at hab
  | cons x xs ih =>
    obtain ⟨hx, hxs⟩ := List.nodup_cons.mp hnd
    simp only [orderedPairs, List.mem_append, List.mem_map] at hab ⊢
    rintro (⟨y, hy, hyx⟩ | hba)
    · injection hyx with h1 h2
      rcases hab with ⟨y2, hy2, hyx2⟩ | hab
      · injection hyx2 with h3 h4
        exact hx (by rw [h3, ← h2]; exact hy)
      · exact hx (by rw [h1]; exact (mem_orderedPairs a b xs hab).2)
    · rcases hab with ⟨y2, hy2, hyx2⟩ | hab
      · injection hyx2 with h3 h4
        exact hx (by rw [h3]; exact (mem_orderedPairs b a xs hba).2)
      · exact ih hxs hab hba

theorem collisionFold_spec (cfg : CollisionMetricConfig) (S : CollisionScene)
    (l : List (String × String)) (hl : ∀ p ∈ l, p.1 ≠ p.2)
    (res : String → CollisionEntry) (x : String) :
    (List.foldl (collisionStep cfg S) res l x).colliding_with
        = (res x).colliding_with ++ partnersIn cfg S x l ∧
    (List.foldl (collisionStep cfg S) res l x).in_collision
        = ((res x).in_collision || !(partnersIn cfg S x l).isEmpty) := by
  induction l generalizing res with
  | nil => simp [partnersIn]
  | cons p t ih =>
    have hpt : p.1 ≠ p.2 := hl p (List.mem_cons_self ..)
    have ht : ∀ q ∈ t, q.1 ≠ q.2 := fun q hq => hl q (List.mem_cons_of_mem _ hq)
    simp only [List.foldl_cons]
    obtain ⟨ih1, ih2⟩ := ih ht (collisionStep cfg S res p)
    rw [ih1, ih2]
    by_cases hc : collidesPair cfg S p.1 p.2 = true
    · have hs : collisionStep cfg S res p = recordPair res p.1 p.2 := by
        simp [collisionStep, hc]
      by_cases hx1 : p.1 = x
      · subst hx1
        rw [hs, recordPair_fst _ _ _ hpt]
        simp [partnersIn, List.filter_cons, hc, hpt]
      · by_cases hx2 : p.2 = x
        · subst hx2
          rw [hs, recordPair_snd _ _ _ hpt]
          simp [partnersIn, List.filter_cons, hc, Ne.symm hpt, hx1]
        · rw [hs, recordPair_other _ _ _ _ (Ne.symm hx1) (Ne.symm hx2)]
          simp [partnersIn, List.filter_cons, hc, hx1, hx2]
    · have hs : collisionStep cfg S res p = res := by
        simp [collisionStep, hc]
      rw [hs]
      simp only [partnersIn, List.filter_cons]
      rw [if_neg (by simp [hc])]
      exact ⟨rfl, rfl⟩

theorem mem_partnersIn (cfg : CollisionMetricConfig) (S : CollisionScene)
    (l : List (String × String)) (hl : ∀ p ∈ l, p.1 ≠ p.2) (x y : String) :
    y ∈ partnersIn cfg S x l ↔
      (((x, y) ∈ l ∧ collidesPair cfg S x y = true) ∨
       ((y, x) ∈ l ∧ collidesPair cfg S y x = true)) := by
  simp only [partnersIn, List.mem_map, List.mem_filter, Bool.and_eq_true,
    Bool.or_eq_true, decide_eq_true_eq]
  constructor
  · rintro ⟨p, ⟨hp, hcp, hx⟩, hf⟩
    rcases hx with hx | hx
    · left
      rw [if_pos hx] at hf
      have : p = (x, y) := by
        cases p; simp_all
      subst this
      exact ⟨hp, hcp⟩
    · by_cases hx1 : p.1 = x
      · left
        rw [if_pos hx1] at hf
        have : p = (x, y) := by
          cases p; simp_all
        subst this
        exact ⟨hp, hcp⟩
      · right
        rw [if_neg hx1] at hf
        have : p = (y, x) := by
          cases p; simp_all
        subst this
        exact ⟨hp, hcp⟩
  · rintro (⟨hp, hcp⟩ | ⟨hp, hcp⟩)
    · exact ⟨(x, y), ⟨hp, hcp, Or.inl rfl⟩, by simp⟩
    · refine ⟨(y, x), ⟨hp, hcp, Or.inr rfl⟩, ?_⟩
      have : y ≠ x := hl (y, x) hp
      simp [this]

theorem collisionRun_char (cfg : CollisionMetricConfig) (S : CollisionScene)
    (hnd : S.objIds.Nodup) (x : String) :
    (collisionRun cfg S x).colliding_with
        = partnersIn cfg S x (orderedPairs S.objIds) ∧
    (collisionRun cfg S x).in_collision
        = !(partnersIn cfg S x (orderedPairs S.objIds)).isEmpty := by
  have hl := orderedPairs_ne S.objIds hnd
  have h := collisionFold_spec cfg S (orderedPairs S.objIds) hl
    (fun _ => { in_collision := false, colliding_with := [] }) x
  exact ⟨by simpa [collisionRun] using h.1, by simpa [collisionRun] using h.2⟩

/-- C3: the collision result is symmetric — `B` appears in `A`'s
`colliding_with` list iff `A` appears in `B`'s; no object appears in its
own `colliding_with` list; and an object's `in_collision` flag holds
exactly when its `colliding_with` list is non-empty. -/
theorem collision_results_symmetric (cfg : CollisionMetricConfig)
    (S : CollisionScene) (hnd : S.objIds.Nodup) (a b : String) :
    (b ∈ (collisionRun cfg S a).colliding_with ↔
      a ∈ (collisionRun cfg S b).colliding_with) ∧
    a ∉ (collisionRun cfg S a).colliding_with ∧
    ((collisionRun cfg S a).in_collision = true ↔
      (collisionRun cfg S a).colliding_with ≠ []) := by
  have hl := orderedPairs_ne S.objIds hnd
  refine ⟨?_, ?_, ?_⟩
  · rw [(collisionRun_char cfg S hnd a).1, (collisionRun_char cfg S hnd b).1,
      mem_partnersIn cfg S _ hl, mem_partnersIn cfg S _ hl]
    exact or_comm
  · rw [(collisionRun_char cfg S hnd a).1, mem_partnersIn cfg S _ hl]
    rintro (⟨hp, _⟩ | ⟨hp, _⟩) <;> exact hl (a, a) hp rfl
  · rw [(collisionRun_char cfg S hnd a).2, (collisionRun_char cfg S hnd a).1]
    simp

/-- Witness for `collision_results_symmetric` on a concrete two-object
scene with always-positive collision oracles. -/
theorem collision_results_symmetric_witness :
    ("B" ∈ (collisionRun {} wScene "A").colliding_with ↔
      "A" ∈ (collisionRun {} wScene "B").colliding_with) ∧
    "A" ∉ (collisionRun {} wScene "A").colliding_with ∧
    ((collisionRun {} wScene "A").in_collision = true ↔
      (collisionRun {} wScene "A").colliding_with ≠ []) :=
  collision_results_symmetric {} wScene (by decide) "A" "B"

/-- C4: an unordered pair of objects (tested once, in list order) is
recorded as colliding — each object appended to the other's
`colliding_with` list, both `in_collision` flags set — exactly when the
first mesh-mesh intersection test is positive and the re-run test on the
copy translated by `move_direction_amount` along the normalized direction
from the contact-point mean to the other mesh's centroid is also
positive. -/
theorem collision_pair_double_check (cfg : CollisionMetricConfig)
    (S : CollisionScene) (hnd : S.objIds.Nodup) (a b : String)
    (hab : (a, b) ∈ orderedPairs S.objIds) :
    (b ∈ (collisionRun cfg S a).colliding_with ↔
      (S.firstCheck a b = true ∧
        S.secondCheck a b (moveTranslation cfg S a b) = true)) ∧
    (a ∈ (collisionRun cfg S b).colliding_with ↔
      (S.firstCheck a b = true ∧
        S.secondCheck a b (moveTranslation cfg S a b) = true)) ∧
    ((S.firstCheck a b = true ∧
        S.secondCheck a b (moveTranslation cfg S a b) = true) →
      (collisionRun cfg S a).in_collision = true ∧
      (collisionRun cfg S b).in_collision = true) := by
  have hl := orderedPairs_ne S.objIds hnd
  have hanti := orderedPairs_antisymm S.objIds hnd a b hab
  have hcoll : collidesPair cfg S a b = true ↔
      (S.firstCheck a b = true ∧
        S.secondCheck a b (moveTranslation cfg S a b) = true) := by
    simp [collidesPair, Bool.and_eq_true]
  have hba : b ∈ (collisionRun cfg S a).colliding_with ↔
      collidesPair cfg S a b = true := by
    rw [(collisionRun_char cfg S hnd a).1, mem_partnersIn cfg S _ hl]
    constructor
    · rintro (⟨_, hc⟩ | ⟨hp, _⟩)
      · exact hc
      · exact absurd hp hanti
    · intro hc
      exact Or.inl ⟨hab, hc⟩
  have hab2 : a ∈ (collisionRun cfg S b).colliding_with ↔
      collidesPair cfg S a b = true := by
    rw [(collisionRun_char cfg S hnd b).1, mem_partnersIn cfg S _ hl]
    constructor
    · rintro (⟨hp, _⟩ | ⟨_, hc⟩)
      · exact absurd hp hanti
      · exact hc
    · intro hc
      exact Or.inr ⟨hab, hc⟩
  refine ⟨hba.trans hcoll, hab2.trans hcoll, ?_⟩
  intro hc
  have hc' := hcoll.mpr hc
  constructor
  · have hb : b ∈ (collisionRun cfg S a).colliding_with := hba.mpr hc'
    rw [(collisionRun_char cfg S hnd a).1] at hb
    rw [(collisionRun_char cfg S hnd a).2]
    cases hpl : partnersIn cfg S a (orderedPairs S.objIds) with
    | nil => rw [hpl] at hb; cases hb
    | cons u v => rfl
  · have hb : a ∈ (collisionRun cfg S b).colliding_with := hab2.mpr hc'
    rw [(collisionRun_char cfg S hnd b).1] at hb
    rw [(collisionRun_char cfg S hnd b).2]
    cases hpl : partnersIn cfg S b (orderedPairs S.objIds) with
    | nil => rw [hpl] at hb; cases hb
    | cons u v => rfl

/-- Witness for `collision_pair_double_check` on the concrete two-object
scene. -/
theorem collision_pair_double_check_witness :
    ("B" ∈ (collisionRun {} wScene "A").colliding_with ↔
      (wScene.firstCheck "A" "B" = true ∧
        wScene.secondCheck "A" "B" (moveTranslation {} wScene "A" "B") = true)) ∧
    ("A" ∈ (collisionRun {} wScene "B").colliding_with ↔
      (wScene.firstCheck "A" "B" = true ∧
        wScene.secondCheck "A" "B" (moveTranslation {} wScene "A" "B") = true)) ∧
    ((wScene.firstCheck "A" "B" = true ∧
        wScene.secondCheck "A" "B" (moveTranslation {} wScene "A" "B") = true) →
      (collisionRun {} wScene "A").in_collision = true ∧
      (collisionRun {} wScene "B").in_collision = true) :=
  collision_pair_double_check {} wScene (by decide) "A" "B" (by decide)

/-- C2 (the claim's guard is absent; evaluated at the degenerate input):
when the mean of the contact points coincides with the other object's
centroid, the separation direction of the collision double-check is the
zero vector and the divisor `np.linalg.norm(move_direction)` is `0`;
`collision.py` line 84 performs `move_direction /= norm` with no guard
or fallback, so the normalization divides by zero (NaN direction in
numpy; in this total-division embedding the translation collapses to the
zero vector and the copy is not moved at all). -/
theorem collision_zero_separation_unguarded :
    meanPts [(⟨1, 0, 0⟩ : Vec3 ℝ), ⟨-1, 0, 0⟩] = (⟨0, 0, 0⟩ : Vec3 ℝ) ∧
    vecNorm ((Vec3.mk (0 : ℝ) 0 0).sub (meanPts [(⟨1, 0, 0⟩ : Vec3 ℝ), ⟨-1, 0, 0⟩])) = 0 ∧
    moveTranslation {}
      { objIds := ["A", "B"], centroid := fun _ => ⟨0, 0, 0⟩,
        firstCheck := fun _ _ => true,
        contacts := fun _ _ => [⟨1, 0, 0⟩, ⟨-1, 0, 0⟩],
        secondCheck := fun _ _ _ => true } "A" "B" = (⟨0, 0, 0⟩ : Vec3 ℝ) := by
  have hmean : meanPts [(⟨1, 0, 0⟩ : Vec3 ℝ), ⟨-1, 0, 0⟩] = (⟨0, 0, 0⟩ : Vec3 ℝ) := by
    norm_num [meanPts, vecSum, Vec3.add, Vec3.zero, Vec3.divScalar]
  refine ⟨hmean, ?_, ?_⟩
  · rw [hmean]
    simp [Vec3.sub, vecNorm]
  · simp only [moveTranslation, hmean]
    simp [Vec3.sub, vecNorm, Vec3.divScalar, Vec3.smul]

/-- C5: for every object in the out-of-bound check, the number of sampled
points equals `int(max(volume * volume_sample_multiplier, min_sample_points))`
(given trimesh's contract that `sample(n)` returns exactly `n` points),
`ratio_in_bound = 1 - num_out_of_bound / num_sampled_points` where
`num_out_of_bound` counts samples whose downward ray misses the floor,
and the object is flagged `out_of_bound` exactly when
`ratio_in_bound < threshold`. -/
theorem outOfBound_eval_formulas (cfg : OutOfBoundMetricConfig) (volume : ℚ)
    (samples : List (Vec3 ℚ)) (ray : List (Vec3 ℚ) → List (Vec3 ℚ))
    (hlen : samples.length = (numSamples cfg volume).toNat)
    (hhit : (ray samples).length ≤ samples.length) :
    ∃ e, outOfBoundEvalObj cfg samples ray = .ok e ∧
      e.num_sampled_points = (numSamples cfg volume).toNat ∧
      e.num_out_of_bound = samples.length - (ray samples).length ∧
      e.ratio_in_bound = 1 - (e.num_out_of_bound : ℚ) / (e.num_sampled_points : ℚ) ∧
      (e.out_of_bound = true ↔ e.ratio_in_bound < cfg.threshold) := by
  simp only [outOfBoundEvalObj]
  rw [if_pos hhit]
  exact ⟨_, rfl, hlen, rfl, rfl, by simp⟩

/-- Witness for `outOfBound_eval_formulas` at a one-point configuration
floor (so one sampled point), zero oriented-bbox volume and a ray query
returning no hits. -/
theorem outOfBound_eval_formulas_witness :
    ∃ e, outOfBoundEvalObj { min_sample_points := 1 } ([⟨0, 0, 0⟩] : List (Vec3 ℚ))
        (fun _ => []) = .ok e ∧
      e.num_sampled_points = (numSamples { min_sample_points := 1 } 0).toNat ∧
      e.num_out_of_bound = ([⟨0, 0, 0⟩] : List (Vec3 ℚ)).length -
        (([] : List (Vec3 ℚ))).length ∧
      e.ratio_in_bound = 1 - (e.num_out_of_bound : ℚ) / (e.num_sampled_points : ℚ) ∧
      (e.out_of_bound = true ↔
        e.ratio_in_bound < ({ min_sample_points := 1 } : OutOfBoundMetricConfig).threshold) :=
  outOfBound_eval_formulas { min_sample_points := 1 } 0 [⟨0, 0, 0⟩] (fun _ => [])
    (by norm_num [numSamples, pyInt]) (by simp)

/-- C6: in the out-of-bound check the hit count of the downward ray query
is checked against the sample count: when it does not exceed the sample
count the evaluation succeeds with the exact (unclamped) miss count, and
when the external ray query returns more hits than samples the checker
surfaces an internal-consistency failure (the Python `assert`) instead of
clamping or masking it. -/
theorem outOfBound_assert_surfaces (cfg : OutOfBoundMetricConfig)
    (samples : List (Vec3 ℚ)) (ray : List (Vec3 ℚ) → List (Vec3 ℚ)) :
    ((ray samples).length ≤ samples.length →
      ∃ e, outOfBoundEvalObj cfg samples ray = .ok e ∧
        e.num_out_of_bound = samples.length - (ray samples).length) ∧
    (samples.length < (ray samples).length →
      outOfBoundEvalObj cfg samples ray =
        .error "AssertionError: len(ray_hit_pts) <= len(sample_points)") := by
  constructor
  · intro hhit
    simp only [outOfBoundEvalObj]
    rw [if_pos hhit]
    exact ⟨_, rfl, rfl⟩
  · intro hlt
    simp only [outOfBoundEvalObj]
    rw [if_neg (by omega)]

/-- Witness for `outOfBound_assert_surfaces`: both sides exercised at
concrete inputs — a well-behaved ray query yields a success record, and
a ray query returning one hit for zero samples yields the surfaced
assertion error. -/
theorem outOfBound_assert_surfaces_witness :
    (∃ e, outOfBoundEvalObj {} ([⟨0, 0, 0⟩] : List (Vec3 ℚ)) (fun _ => []) = .ok e ∧
        e.num_out_of_bound = ([⟨0, 0, 0⟩] : List (Vec3 ℚ)).length - 0) ∧
    outOfBoundEvalObj {} ([] : List (Vec3 ℚ)) (fun _ => [⟨0, 0, 0⟩]) =
      .error "AssertionError: len(ray_hit_pts) <= len(sample_points)" :=
  ⟨(outOfBound_assert_surfaces {} [⟨0, 0, 0⟩] (fun _ => [])).1 (by simp),
   (outOfBound_assert_surfaces {} [] (fun _ => [⟨0, 0, 0⟩])).2 (by simp)⟩

/-- C9 (failing part, evaluated at a failing input): the out-of-bound
evaluation depends on the randomly drawn sample points.  With one fixed
configuration, one fixed object volume (so both draws have the length
`trimesh.sample` is asked for) and one fixed deterministic floor ray
query, two different random draws produce different results — and
`OutOfBoundMetric.run` passes no seed to `t_obj.sample` and accepts
none, so runs on identical meshes, poses and configuration are not
reproducible. -/
theorem outOfBound_depends_on_random_draw :
    (([⟨0, 0, 0⟩, ⟨1, 0, 0⟩] : List (Vec3 ℚ)).length =
        (numSamples { min_sample_points := 2 } 0).toNat) ∧
    (([⟨0, 0, 1⟩, ⟨1, 0, 1⟩] : List (Vec3 ℚ)).length =
        (numSamples { min_sample_points := 2 } 0).toNat) ∧
    (outOfBoundEvalObj { min_sample_points := 2 } [⟨0, 0, 0⟩, ⟨1, 0, 0⟩]
        (fun pts => pts.filter (fun p => p.z ≤ 0))).toOption.map
        ObjOutOfBoundEval.num_out_of_bound ≠
      (outOfBoundEvalObj { min_sample_points := 2 } [⟨0, 0, 1⟩, ⟨1, 0, 1⟩]
        (fun pts => pts.filter (fun p => p.z ≤ 0))).toOption.map
        ObjOutOfBoundEval.num_out_of_bound := by
  refine ⟨?_, ?_, ?_⟩
  · norm_num [numSamples, pyInt]
    rfl
  · norm_num [numSamples, pyInt]
    rfl
  · decide



/-! ### Helper lemmas for the navigability metric -/

theorem maskOf_sumPix (walkable labels : NpImage) (label : Nat) :
    (maskOf walkable labels label).sumPix = 255 * countLabel labels label := by
  simp only [maskOf, NpImage.sumPix, countLabel]
  induction labels.data with
  | nil => simp
  | cons a t ih =>
    rw [List.map_cons, List.sum_cons, List.countP_cons, ih]
    by_cases h : a = label
    · simp [h]
      omega
    · simp [h]

theorem sum_eq_255_mul_countP (l : List Nat) (hbin : ∀ v ∈ l, v = 0 ∨ v = 255) :
    l.sum = 255 * l.countP (fun v => v ≠ 0) := by
  induction l with
  | nil => simp
  | cons a t ih =>
    have iht := ih (fun v hv => hbin v (List.mem_cons_of_mem _ hv))
    rw [List.sum_cons, List.countP_cons, iht]
    rcases hbin a (List.mem_cons_self ..) with h | h <;>
      (subst h; simp; try omega)

theorem largest_fold_sum_aux (walkable labels : NpImage) (L : List Nat) :
    ∀ acc : NpImage,
      (L.foldl
        (fun walkable_map_max label =>
          let mask := maskOf walkable labels label
          if walkable_map_max.sumPix < mask.sumPix then mask else walkable_map_max)
        acc).sumPix
      = L.foldl (fun m label => max m ((maskOf walkable labels label).sumPix))
          acc.sumPix := by
  induction L with
  | nil => intro acc; rfl
  | cons ℓ t ih =>
    intro acc
    rw [List.foldl_cons, List.foldl_cons, ih]
    congr 1
    by_cases h : acc.sumPix < (maskOf walkable labels ℓ).sumPix
    · simp only [h, if_pos]
      exact (Nat.max_eq_right (Nat.le_of_lt h)).symm
    · simp only [h, if_neg, not_false_iff]
      exact (Nat.max_eq_left (Nat.le_of_not_lt h)).symm

theorem foldl_max_mul_left (k : Nat) (g : Nat → Nat) (L : List Nat) :
    ∀ a : Nat,
      L.foldl (fun m x => max m (k * g x)) (k * a)
        = k * ((L.map g).foldl max a) := by
  induction L with
  | nil => intro a; rfl
  | cons x t ih =>
    intro a
    rw [List.map_cons, List.foldl_cons, List.foldl_cons,
      Nat.mul_max_mul_left k a (g x), ih]

theorem largestComponentMask_sumPix (walkable labels : NpImage)
    (num_labels : Nat) :
    (largestComponentMask walkable labels num_labels).sumPix
      = 255 * maxCompCount labels num_labels := by
  unfold largestComponentMask maxCompCount
  rw [largest_fold_sum_aux]
  have hz : (NpImage.zerosLike walkable).sumPix = 255 * 0 := by
    simp [NpImage.zerosLike, NpImage.sumPix, List.sum_replicate]
  rw [hz]
  rw [show (fun (m label : Nat) => max m ((maskOf walkable labels label).sumPix))
        = fun m label => max m (255 * countLabel labels label) from
      funext fun m => funext fun label => by rw [maskOf_sumPix]]
  exact foldl_max_mul_left 255 (countLabel labels) _ 0

theorem foldl_max_le (L : List Nat) (B : Nat) :
    ∀ a : Nat, a ≤ B → (∀ x ∈ L, x ≤ B) → L.foldl max a ≤ B := by
  induction L with
  | nil => intro a ha _; exact ha
  | cons x t ih =>
    intro a ha hL
    rw [List.foldl_cons]
    exact ih _ (max_le ha (hL x (List.mem_cons_self ..)))
      (fun y hy => hL y (List.mem_cons_of_mem _ hy))

theorem forall₂_countP_le {α β : Type} (R : α → β → Prop)
    (p : α → Bool) (q : β → Bool)
    (himp : ∀ a b, R a b → p a = true → q b = true) :
    ∀ {l : List α} {w : List β}, List.Forall₂ R l w →
      l.countP p ≤ w.countP q := by
  intro l w h
  induction h with
  | nil => simp
  | @cons a b l1 l2 h1 h2 ih =>
    rw [List.countP_cons, List.countP_cons]
    by_cases hp : p a = true
    · have hq := himp a b h1 hp
      simp only [hp, hq, if_pos]
      omega
    · simp only [hp, if_neg, not_false_iff]
      by_cases hq : q b = true <;> simp [hq] <;> omega

theorem forall₂_exists_mem {α β : Type} (R : α → β → Prop) :
    ∀ {l : List α} {w : List β}, List.Forall₂ R l w →
      ∀ {a : α}, a ∈ l → ∃ b ∈ w, R a b := by
  intro l w h
  induction h with
  | nil => intro a ha; cases ha
  | @cons x y l1 l2 h1 h2 ih =>
    intro a ha
    rcases List.mem_cons.mp ha with rfl | ha
    · exact ⟨y, List.mem_cons_self .., h1⟩
    · obtain ⟨b, hb, hR⟩ := ih ha
      exact ⟨b, List.mem_cons_of_mem _ hb, hR⟩

/-- C7: the navigability rate is the pixel count of the largest
8-connected component of the walkable map (as labeled by the external
`cv2.connectedComponentsWithStats` call, whose contract is carried by
the hypotheses: background label exactly on zero pixels, every label in
`1..num_labels-1` non-empty) divided by the pixel count of the whole
walkable map before component selection; it is `0` when there are no
walkable components, and it always lies in `[0, 1]`. -/
theorem navigability_rate_spec (walkable labels : NpImage) (num_labels : Nat)
    (hbin : ∀ v ∈ walkable.data, v = 0 ∨ v = 255)
    (hzero : List.Forall₂ (fun lv wv => lv = 0 ↔ wv = 0) labels.data walkable.data)
    (hnonempty : ∀ ℓ, 1 ≤ ℓ → ℓ < num_labels → ℓ ∈ labels.data) :
    (num_labels ≤ 1 → navigabilityRate walkable labels num_labels = 0) ∧
    (1 < num_labels →
      navigabilityRate walkable labels num_labels =
        (maxCompCount labels num_labels : ℚ) / (walkable.countNonzero : ℚ) ∧
      0 < walkable.countNonzero) ∧
    0 ≤ navigabilityRate walkable labels num_labels ∧
    navigabilityRate walkable labels num_labels ≤ 1 := by
  have hcount_le : maxCompCount labels num_labels ≤ walkable.countNonzero := by
    apply foldl_max_le _ _ _ (Nat.zero_le _)
    intro x hx
    obtain ⟨ℓ, hℓmem, rfl⟩ := List.mem_map.mp hx
    have hge : 1 ≤ ℓ := (List.mem_range'_1.mp hℓmem).1
    refine forall₂_countP_le _ _ _ ?_ hzero
    intro a b hR hp
    have ha : a = ℓ := by simpa using hp
    subst ha
    have hbne : b ≠ 0 := fun h0 => absurd (hR.mpr h0) (by omega)
    simpa using hbne
  have heq : 1 < num_labels →
      navigabilityRate walkable labels num_labels =
        (maxCompCount labels num_labels : ℚ) / (walkable.countNonzero : ℚ) := by
    intro h
    unfold navigabilityRate
    rw [if_pos h, largestComponentMask_sumPix, NpImage.sumPix,
      sum_eq_255_mul_countP walkable.data hbin]
    push_cast
    rw [mul_div_mul_left _ _ (by norm_num : (255 : ℚ) ≠ 0)]
    rfl
  have hpos : 1 < num_labels → 0 < walkable.countNonzero := by
    intro h
    have hmem1 : (1 : Nat) ∈ labels.data := hnonempty 1 le_rfl h
    obtain ⟨b, hbmem, hbiff⟩ := forall₂_exists_mem _ hzero hmem1
    have hbne : b ≠ 0 := fun h0 => by exact absurd (hbiff.mpr h0) (by omega)
    exact List.countP_pos_iff.mpr ⟨b, hbmem, by simpa using hbne⟩
  refine ⟨?_, fun h => ⟨heq h, hpos h⟩, ?_, ?_⟩
  · intro h
    unfold navigabilityRate
    rw [if_neg (by omega)]
  · by_cases h : 1 < num_labels
    · rw [heq h]
      positivity
    · unfold navigabilityRate
      rw [if_neg h]
  · by_cases h : 1 < num_labels
    · rw [heq h]
      apply div_le_one_of_le₀
      · exact_mod_cast hcount_le
      · positivity
    · unfold navigabilityRate
      rw [if_neg h]
      norm_num

/-- Witness for `navigability_rate_spec`: a 1×4 walkable map
`[255, 0, 255, 255]` with cv2 labels `[1, 0, 2, 2]` (3 labels counting
background); the rate is 2/3. -/
theorem navigability_rate_spec_witness :
    ((3 : Nat) ≤ 1 → navigabilityRate ⟨1, 4, [255, 0, 255, 255]⟩
        ⟨1, 4, [1, 0, 2, 2]⟩ 3 = 0) ∧
    (1 < 3 →
      navigabilityRate ⟨1, 4, [255, 0, 255, 255]⟩ ⟨1, 4, [1, 0, 2, 2]⟩ 3 =
        (maxCompCount ⟨1, 4, [1, 0, 2, 2]⟩ 3 : ℚ) /
          ((⟨1, 4, [255, 0, 255, 255]⟩ : NpImage).countNonzero : ℚ) ∧
      0 < (⟨1, 4, [255, 0, 255, 255]⟩ : NpImage).countNonzero) ∧
    0 ≤ navigabilityRate ⟨1, 4, [255, 0, 255, 255]⟩ ⟨1, 4, [1, 0, 2, 2]⟩ 3 ∧
    navigabilityRate ⟨1, 4, [255, 0, 255, 255]⟩ ⟨1, 4, [1, 0, 2, 2]⟩ 3 ≤ 1 :=
  navigability_rate_spec ⟨1, 4, [255, 0, 255, 255]⟩ ⟨1, 4, [1, 0, 2, 2]⟩ 3
    (by decide)
    (by norm_num [List.forall₂_cons])
    (by
      intro ℓ h1 h2
      have h3 : ℓ = 1 ∨ ℓ = 2 := by omega
      rcases h3 with rfl | rfl <;> decide)

/-- C8: the extrude-distance computation rejects any opening ID matching
neither the `door` nor the `window` naming convention with a
configuration error reporting the unsupported type, and for door/window
IDs returns the type-appropriate distance: the door's own width (or the
configured door distance), the configured window distance, plus half the
opening thickness when requested. -/
theorem opening_extrude_distance_spec (cfg : OpeningClearanceMetricConfig)
    (extents : String → ℚ × ℚ × ℚ) (opening_id : String) (wt : Bool) :
    ((pyStartsWith opening_id "door" = false ∧
        pyStartsWith opening_id "window" = false) →
      getOpeningExtrudeDistance cfg extents opening_id wt =
        .error "Unsupported opening type: None") ∧
    (pyStartsWith opening_id "door" = true →
      getOpeningExtrudeDistance cfg extents opening_id wt = .ok
        ((if cfg.door_use_width_as_extrude then (extents opening_id).1
          else cfg.door_extrude_distance) +
         (if wt then (extents opening_id).2.1 / 2 else 0))) ∧
    ((pyStartsWith opening_id "door" = false ∧
        pyStartsWith opening_id "window" = true) →
      getOpeningExtrudeDistance cfg extents opening_id wt = .ok
        (cfg.window_front_extrude_distance +
         (if wt then (extents opening_id).2.1 / 2 else 0))) := by
  refine ⟨?_, ?_, ?_⟩
  · rintro ⟨h1, h2⟩
    simp [getOpeningExtrudeDistance, h1, h2]
  · intro h1
    cases wt <;> cases hc : cfg.door_use_width_as_extrude <;>
      simp [getOpeningExtrudeDistance, h1, hc]
  · rintro ⟨h1, h2⟩
    cases wt <;> simp [getOpeningExtrudeDistance, h1, h2]

/-- Witness for `opening_extrude_distance_spec`: a non-opening ID is
rejected with the reported type error; a door ID yields its width plus
half its thickness; a window ID yields the configured distance plus half
its thickness. -/
theorem opening_extrude_distance_spec_witness :
    getOpeningExtrudeDistance {} wExt "arch_7" true =
      .error "Unsupported opening type: None" ∧
    getOpeningExtrudeDistance {} wExt "door_0" true = .ok (2 + 1 / 10 / 2) ∧
    getOpeningExtrudeDistance {} wExt "window_0" true =
      .ok (1 / 2 + 1 / 10 / 2) := by
  refine ⟨?_, ?_, ?_⟩
  · exact (opening_extrude_distance_spec {} wExt "arch_7" true).1
      ⟨by decide, by decide⟩
  · have h := (opening_extrude_distance_spec {} wExt "door_0" true).2.1
      (by decide)
    simpa [wExt] using h
  · have h := (opening_extrude_distance_spec {} wExt "window_0" true).2.2
      ⟨by decide, by decide⟩
    simpa [wExt] using h

/-! ### Opening clearance: occlusion flag vs interference list (C1) -/

theorem summarize_occluded_iff (ms : List (String × NpImage)) :
    (summarizeOcclusionInfo ms).opening_occluded = true ↔ ms ≠ [] := by
  cases ms with
  | nil => simp [summarizeOcclusionInfo]
  | cons km t =>
    obtain ⟨k, m⟩ := km
    simp [summarizeOcclusionInfo]

/-- C1 counterexample: a door with one interfering object
(`interfering_obj_ids = ["obj_0"]`, found by the bounding-box test) whose
mesh has no triangle within the extrusion band, so no occupancy map is
produced and the reported `occlusion_info` has `opening_occluded = False`
and `total_occlusion = 0.0` — refuting "`opening_occluded` is true iff
`interfering_obj_ids` is non-empty" at the checked front direction
`(0,-1,0)` of `door_0`. -/
theorem opening_occluded_claim_counterexample :
    (processOneSide {} cexScene (fun m _ => m) "door_0" ⟨0, -1, 0⟩
        cexBBoxes {}).toOption.map
        (fun r => (r.interfering_obj_ids, r.occlusion_info)) =
      some (["obj_0"], ⟨false, 0, []⟩) := by
  norm_num [processOneSide, getObjsInterferingOneSide, projectInterferingObjs,
    getOpeningExtrudeDistance, summarizeOcclusionInfo, objInterferingFaces,
    BoundingBox.sample_points, BoundingBox.containsPt, Mat3.mulVec,
    Mat3.transpose, Mat3.identity, Transform.inv, Transform.applyPt,
    Vec3.add, Vec3.sub, Vec3.smul, Vec3.neg, Vec3.dot, vecCompMin, vecCompMax,
    vGet, pyStartsWith, cexScene, cexBBoxes, cexR, min_def, max_def]
  exact ⟨_, rfl, rfl, rfl⟩

/-- C1 (amended): for every opening and checked direction (with the
interference test, extrusion distance and opening-frame bounds all
succeeding), the per-side result reports `interfering_obj_ids` exactly as
found, `opening_occluded` is true iff at least one interfering object has
at least one triangle within the extrusion band on that side (i.e.
contributes an occupancy map), and an opening side with zero interfering
objects yields the well-defined result `opening_occluded = False`,
`total_occlusion = 0.0` rather than an error. -/
theorem opening_occluded_iff_projected (cfg : OpeningClearanceMetricConfig)
    (S : OpeningScene) (fcp : NpImage → List (ℤ × ℤ) → NpImage)
    (oid : String) (dir : Vec3 ℚ) (bboxes : List (String × BoundingBox))
    (bbcfg : BoundingBoxConfig) (interfering : List String) (extrude : ℚ)
    (uvmin uvmax : Vec3 ℚ)
    (h1 : getObjsInterferingOneSide cfg S oid dir bboxes bbcfg = .ok interfering)
    (h2 : getOpeningExtrudeDistance cfg S.archExtents oid true = .ok extrude)
    (h3 : vecCompMin ((S.archVertices oid).map (S.archTransform oid).inv.applyPt)
      = some uvmin)
    (h4 : vecCompMax ((S.archVertices oid).map (S.archTransform oid).inv.applyPt)
      = some uvmax) :
    ∃ r, processOneSide cfg S fcp oid dir bboxes bbcfg = .ok r ∧
      r.interfering_obj_ids = interfering ∧
      (r.occlusion_info.opening_occluded = true ↔
        ∃ obj ∈ interfering, objInterferingFaces S oid obj dir extrude ≠ []) ∧
      (interfering = [] →
        r.occlusion_info.opening_occluded = false ∧
        r.occlusion_info.total_occlusion = 0) := by
  simp only [processOneSide, projectInterferingObjs, h1, h2, h3, h4]
  refine ⟨_, rfl, rfl, ?_, ?_⟩
  · rw [summarize_occluded_iff, Ne, List.filterMap_eq_nil_iff]
    push_neg
    constructor
    · rintro ⟨obj, hmem, hne⟩
      refine ⟨obj, hmem, fun hfaces => hne ?_⟩
      simp [hfaces]
    · rintro ⟨obj, hmem, hfaces⟩
      refine ⟨obj, hmem, ?_⟩
      have hp : (objInterferingFaces S oid obj dir extrude).isEmpty = false := by
        cases h : objInterferingFaces S oid obj dir extrude with
        | nil => exact absurd h hfaces
        | cons a t => rfl
      simp [hp]
  · rintro rfl
    simp [summarizeOcclusionInfo]

/-- Witness for `opening_occluded_iff_projected` on the concrete
one-door, one-object scene: the interference test finds `obj_0`, the
door extrusion distance is `21/20`, and the reported occlusion flag
agrees with the (empty) set of band triangles. -/
theorem opening_occluded_iff_projected_witness :
    ∃ r, processOneSide {} cexScene (fun m _ => m) "door_0" ⟨0, -1, 0⟩
        cexBBoxes {} = .ok r ∧
      r.interfering_obj_ids = ["obj_0"] ∧
      (r.occlusion_info.opening_occluded = true ↔
        ∃ obj ∈ ["obj_0"],
          objInterferingFaces cexScene "door_0" obj ⟨0, -1, 0⟩ (21/20) ≠ []) ∧
      ((["obj_0"] : List String) = [] →
        r.occlusion_info.opening_occluded = false ∧
        r.occlusion_info.total_occlusion = 0) :=
  opening_occluded_iff_projected {} cexScene (fun m _ => m) "door_0"
    ⟨0, -1, 0⟩ cexBBoxes {} ["obj_0"] (21/20) ⟨-1/2, -1/20, 0⟩ ⟨1/2, 1/20, 2⟩
    (by norm_num [getObjsInterferingOneSide, getOpeningExtrudeDistance,
      BoundingBox.sample_points, BoundingBox.containsPt, Mat3.mulVec,
      Mat3.transpose, Mat3.identity, Vec3.add, Vec3.sub, Vec3.smul, Vec3.dot,
      pyStartsWith, cexScene, cexBBoxes, cexR])
    (by norm_num [getOpeningExtrudeDistance, pyStartsWith, cexScene])
    (by norm_num [vecCompMin, cexScene, Transform.inv, Transform.applyPt,
      Mat3.mulVec, Mat3.transpose, Mat3.identity, Vec3.add, Vec3.neg, Vec3.dot,
      min_def])
    (by norm_num [vecCompMax, cexScene, Transform.inv, Transform.applyPt,
      Mat3.mulVec, Mat3.transpose, Mat3.identity, Vec3.add, Vec3.neg, Vec3.dot,
      max_def])

/-! ### Occlusion summary bounds (C10) -/

theorem nat_lor_eq_zero_iff (m n : Nat) : m ||| n = 0 ↔ m = 0 ∧ n = 0 := by
  constructor
  · intro h
    have hm : ∀ i, m.testBit i = false := fun i => by
      have := congrArg (fun x => Nat.testBit x i) h
      simpa using (Bool.or_eq_false_iff.mp (by simpa using this)).1
    have hn : ∀ i, n.testBit i = false := fun i => by
      have := congrArg (fun x => Nat.testBit x i) h
      simpa using (Bool.or_eq_false_iff.mp (by simpa using this)).2
    exact ⟨Nat.eq_of_testBit_eq (fun i => by simp [hm i]),
           Nat.eq_of_testBit_eq (fun i => by simp [hn i])⟩
  · rintro ⟨rfl, rfl⟩
    rfl

theorem countNZ_zipWith_lor_left (a : List Nat) :
    ∀ b : List Nat, a.length = b.length →
      a.countP (fun v => v ≠ 0) ≤
        (List.zipWith Nat.lor a b).countP (fun v => v ≠ 0) := by
  induction a with
  | nil => intro b h; simp
  | cons x t ih =>
    intro b h
    cases b with
    | nil => simp at h
    | cons y s =>
      rw [List.zipWith_cons_cons, List.countP_cons, List.countP_cons]
      have hts := ih s (by simpa using h)
      by_cases hx : x = 0
      · have e1 : (decide (x ≠ 0)) = false := by simp [hx]
        rw [e1]
        simp only [Bool.false_eq_true, if_false, add_zero]
        exact le_trans hts (Nat.le_add_right _ _)
      · have hlor : Nat.lor x y ≠ 0 := fun h0 => hx ((nat_lor_eq_zero_iff x y).mp h0).1
        have e1 : (decide (x ≠ 0)) = true := by simp [hx]
        have e2 : (decide (Nat.lor x y ≠ 0)) = true := by simp [hlor]
        rw [e1, e2]
        simpa using Nat.add_le_add hts (le_refl 1)

theorem countNZ_zipWith_lor_right (a : List Nat) :
    ∀ b : List Nat, a.length = b.length →
      b.countP (fun v => v ≠ 0) ≤
        (List.zipWith Nat.lor a b).countP (fun v => v ≠ 0) := by
  induction a with
  | nil =>
    intro b h
    cases b with
    | nil => simp
    | cons y s => simp at h
  | cons x t ih =>
    intro b h
    cases b with
    | nil => simp at h
    | cons y s =>
      rw [List.zipWith_cons_cons, List.countP_cons, List.countP_cons]
      have hts := ih s (by simpa using h)
      by_cases hy : y = 0
      · have e1 : (decide (y ≠ 0)) = false := by simp [hy]
        rw [e1]
        simp only [Bool.false_eq_true, if_false, add_zero]
        exact le_trans hts (Nat.le_add_right _ _)
      · have hlor : Nat.lor x y ≠ 0 := fun h0 => hy ((nat_lor_eq_zero_iff x y).mp h0).2
        have e1 : (decide (y ≠ 0)) = true := by simp [hy]
        have e2 : (decide (Nat.lor x y ≠ 0)) = true := by simp [hlor]
        rw [e1, e2]
        simpa using Nat.add_le_add hts (le_refl 1)

theorem countNZ_zipWith_lor_le (a : List Nat) :
    ∀ b : List Nat,
      (List.zipWith Nat.lor a b).countP (fun v => v ≠ 0) ≤
        a.countP (fun v => v ≠ 0) + b.countP (fun v => v ≠ 0) := by
  induction a with
  | nil => intro b; simp
  | cons x t ih =>
    intro b
    cases b with
    | nil => simp
    | cons y s =>
      rw [List.zipWith_cons_cons, List.countP_cons, List.countP_cons,
        List.countP_cons]
      have hts := ih s
      by_cases hlor : Nat.lor x y = 0
      · have e2 : (decide (Nat.lor x y ≠ 0)) = false := by simp [hlor]
        rw [e2]
        simp only [Bool.false_eq_true, if_false, add_zero]
        omega
      · have e2 : (decide (Nat.lor x y ≠ 0)) = true := by simp [hlor]
        have hxy : x ≠ 0 ∨ y ≠ 0 := by
          by_contra hc
          push_neg at hc
          exact hlor ((nat_lor_eq_zero_iff x y).mpr ⟨hc.1, hc.2⟩)
        rw [e2]
        rcases hxy with hx | hy
        · have e1 : (decide (x ≠ 0)) = true := by simp [hx]
          rw [e1]
          omega
        · have e1 : (decide (y ≠ 0)) = true := by simp [hy]
          rw [e1]
          omega

theorem fold_npOr_data_length (maps : List (String × NpImage)) :
    ∀ acc : NpImage, (∀ km ∈ maps, km.2.data.length = acc.data.length) →
      (maps.foldl (fun acc km => acc.npOr km.2) acc).data.length
        = acc.data.length := by
  induction maps with
  | nil => intro acc _; rfl
  | cons km t ih =>
    intro acc h
    rw [List.foldl_cons]
    have hkm := h km (List.mem_cons_self ..)
    have hstep : (acc.npOr km.2).data.length = acc.data.length := by
      simp [NpImage.npOr, List.length_zipWith, hkm]
    rw [ih (acc.npOr km.2)
      (fun km2 hm => by rw [hstep]; exact h km2 (List.mem_cons_of_mem _ hm)),
      hstep]

theorem fold_npOr_countNZ_ge_acc (maps : List (String × NpImage)) :
    ∀ acc : NpImage, (∀ km ∈ maps, km.2.data.length = acc.data.length) →
      acc.countNonzero ≤
        (maps.foldl (fun acc km => acc.npOr km.2) acc).countNonzero := by
  induction maps with
  | nil => intro acc _; exact le_refl _
  | cons km t ih =>
    intro acc h
    rw [List.foldl_cons]
    have hkm := h km (List.mem_cons_self ..)
    have hstep : (acc.npOr km.2).data.length = acc.data.length := by
      simp [NpImage.npOr, List.length_zipWith, hkm]
    have h1 : acc.countNonzero ≤ (acc.npOr km.2).countNonzero :=
      countNZ_zipWith_lor_left acc.data km.2.data hkm.symm
    exact le_trans h1 (ih (acc.npOr km.2)
      (fun km2 hm => by rw [hstep]; exact h km2 (List.mem_cons_of_mem _ hm)))

theorem fold_npOr_countNZ_ge_mem (maps : List (String × NpImage)) :
    ∀ acc : NpImage, (∀ km ∈ maps, km.2.data.length = acc.data.length) →
      ∀ km ∈ maps, km.2.countNonzero ≤
        (maps.foldl (fun acc km => acc.npOr km.2) acc).countNonzero := by
  induction maps with
  | nil => intro acc _ km hm; cases hm
  | cons km0 t ih =>
    intro acc h km hm
    rw [List.foldl_cons]
    have hkm0 := h km0 (List.mem_cons_self ..)
    have hstep : (acc.npOr km0.2).data.length = acc.data.length := by
      simp [NpImage.npOr, List.length_zipWith, hkm0]
    have hth : ∀ km2 ∈ t, km2.2.data.length = (acc.npOr km0.2).data.length :=
      fun km2 hm2 => by rw [hstep]; exact h km2 (List.mem_cons_of_mem _ hm2)
    rcases List.mem_cons.mp hm with rfl | hm
    · have h1 : km.2.countNonzero ≤ (acc.npOr km.2).countNonzero :=
        countNZ_zipWith_lor_right acc.data km.2.data (h km (List.mem_cons_self ..)).symm
      exact le_trans h1 (fold_npOr_countNZ_ge_acc t (acc.npOr km.2) hth)
    · exact ih (acc.npOr km0.2) hth km hm

theorem fold_npOr_countNZ_le (maps : List (String × NpImage)) :
    ∀ acc : NpImage,
      (maps.foldl (fun acc km => acc.npOr km.2) acc).countNonzero ≤
        acc.countNonzero + (maps.map (fun km => km.2.countNonzero)).sum := by
  induction maps with
  | nil => intro acc; simp
  | cons km t ih =>
    intro acc
    rw [List.foldl_cons, List.map_cons, List.sum_cons]
    have h1 : (acc.npOr km.2).countNonzero ≤
        acc.countNonzero + km.2.countNonzero :=
      countNZ_zipWith_lor_le acc.data km.2.data
    have h2 := ih (acc.npOr km.2)
    omega

theorem countNZ_zerosLike (m : NpImage) :
    (NpImage.zerosLike m).countNonzero = 0 := by
  simp only [NpImage.zerosLike, NpImage.countNonzero]
  rw [List.countP_eq_zero]
  intro a ha
  rw [List.eq_of_mem_replicate ha]
  simp

theorem sum_map_div {α : Type} (l : List α) (f : α → ℚ) (c : ℚ) :
    (l.map (fun a => f a / c)).sum = (l.map f).sum / c := by
  induction l with
  | nil => simp
  | cons a t ih => simp [ih, add_div]

theorem cast_sum_map {α : Type} (l : List α) (f : α → Nat) :
    (((l.map f).sum : Nat) : ℚ) = (l.map (fun a => ((f a : Nat) : ℚ))).sum := by
  induction l with
  | nil => simp
  | cons a t ih =>
    rw [List.map_cons, List.sum_cons, Nat.cast_add, ih, List.map_cons,
      List.sum_cons]

/-- C10: for a non-empty set of per-object occupancy maps over the same
opening image, the reported `total_occlusion` (nonzero pixels of the
pixel-wise OR of all maps over the image size) is at least every
per-object occlusion percentage (hence at least their maximum), at most
their sum, and lies in `[0, 1]`. -/
theorem total_occlusion_bounds (k0 : String) (m0 : NpImage)
    (rest : List (String × NpImage))
    (hwf : m0.WF) (hpos : 0 < m0.size)
    (hdims : ∀ km ∈ (k0, m0) :: rest, km.2.data.length = m0.data.length) :
    (∀ p ∈ (summarizeOcclusionInfo ((k0, m0) :: rest)).object_occlusions,
      p.2 ≤ (summarizeOcclusionInfo ((k0, m0) :: rest)).total_occlusion) ∧
    (summarizeOcclusionInfo ((k0, m0) :: rest)).total_occlusion ≤
      ((summarizeOcclusionInfo ((k0, m0) :: rest)).object_occlusions.map
        Prod.snd).sum ∧
    0 ≤ (summarizeOcclusionInfo ((k0, m0) :: rest)).total_occlusion ∧
    (summarizeOcclusionInfo ((k0, m0) :: rest)).total_occlusion ≤ 1 := by
  have hocc : (summarizeOcclusionInfo ((k0, m0) :: rest)).object_occlusions
      = ((k0, m0) :: rest).map
          (fun km => (km.1, (km.2.countNonzero : ℚ) / (m0.size : ℚ))) := rfl
  have htot : (summarizeOcclusionInfo ((k0, m0) :: rest)).total_occlusion
      = (((((k0, m0) :: rest).foldl (fun acc km => acc.npOr km.2)
            (NpImage.zerosLike m0)).countNonzero : ℚ)) / (m0.size : ℚ) := rfl
  have hlen_acc : ∀ km ∈ (k0, m0) :: rest,
      km.2.data.length = (NpImage.zerosLike m0).data.length := by
    intro km hm
    simpa [NpImage.zerosLike] using hdims km hm
  have hClen : (((k0, m0) :: rest).foldl (fun acc km => acc.npOr km.2)
      (NpImage.zerosLike m0)).data.length = m0.data.length := by
    simpa [NpImage.zerosLike] using
      fold_npOr_data_length ((k0, m0) :: rest) (NpImage.zerosLike m0) hlen_acc
  have hCle : (((k0, m0) :: rest).foldl (fun acc km => acc.npOr km.2)
      (NpImage.zerosLike m0)).countNonzero ≤ m0.size := by
    calc (((k0, m0) :: rest).foldl (fun acc km => acc.npOr km.2)
          (NpImage.zerosLike m0)).countNonzero
        ≤ (((k0, m0) :: rest).foldl (fun acc km => acc.npOr km.2)
            (NpImage.zerosLike m0)).data.length := List.countP_le_length _
      _ = m0.data.length := hClen
      _ = m0.size := hwf
  have hsizeQ : (0 : ℚ) < (m0.size : ℚ) := by exact_mod_cast hpos
  refine ⟨?_, ?_, ?_, ?_⟩
  · intro p hp
    rw [hocc] at hp
    obtain ⟨km, hkm, rfl⟩ := List.mem_map.mp hp
    rw [htot]
    have h1 := fold_npOr_countNZ_ge_mem ((k0, m0) :: rest)
      (NpImage.zerosLike m0) hlen_acc km hkm
    exact (div_le_div_iff_of_pos_right hsizeQ).mpr (by exact_mod_cast h1)
  · rw [htot, hocc]
    have hmapmap : ((((k0, m0) :: rest).map
          (fun km => (km.1, (km.2.countNonzero : ℚ) / (m0.size : ℚ)))).map
        Prod.snd)
        = ((k0, m0) :: rest).map
            (fun km => ((km.2.countNonzero : Nat) : ℚ) / (m0.size : ℚ)) := by
      rw [List.map_map]
      rfl
    rw [hmapmap, show ((k0, m0) :: rest).map
        (fun km => ((km.2.countNonzero : Nat) : ℚ) / (m0.size : ℚ))
        = ((k0, m0) :: rest).map
            (fun km => (fun km2 : String × NpImage =>
              ((km2.2.countNonzero : Nat) : ℚ)) km / (m0.size : ℚ)) from rfl,
      sum_map_div]
    have h2 : (((k0, m0) :: rest).foldl (fun acc km => acc.npOr km.2)
        (NpImage.zerosLike m0)).countNonzero ≤
        (((k0, m0) :: rest).map (fun km => km.2.countNonzero)).sum := by
      have h3 := fold_npOr_countNZ_le ((k0, m0) :: rest) (NpImage.zerosLike m0)
      rwa [countNZ_zerosLike, zero_add] at h3
    refine (div_le_div_iff_of_pos_right hsizeQ).mpr ?_
    calc ((((k0, m0) :: rest).foldl (fun acc km => acc.npOr km.2)
          (NpImage.zerosLike m0)).countNonzero : ℚ)
        ≤ (((((k0, m0) :: rest).map (fun km => km.2.countNonzero)).sum : Nat) : ℚ) := by
          exact_mod_cast h2
      _ = _ := cast_sum_map ((k0, m0) :: rest) (fun km => km.2.countNonzero)
  · rw [htot]
    positivity
  · rw [htot]
    rw [div_le_one hsizeQ]
    exact_mod_cast hCle

/-- Witness for `total_occlusion_bounds`: two 1×2 occupancy maps
`[255, 0]` and `[0, 7]` over the same 2-pixel opening image (per-object
percentages 1/2 and 1/2, total 1). -/
theorem total_occlusion_bounds_witness :
    (∀ p ∈ (summarizeOcclusionInfo (("a", ⟨1, 2, [255, 0]⟩) ::
        [("b", ⟨1, 2, [0, 7]⟩)])).object_occlusions,
      p.2 ≤ (summarizeOcclusionInfo (("a", ⟨1, 2, [255, 0]⟩) ::
        [("b", ⟨1, 2, [0, 7]⟩)])).total_occlusion) ∧
    (summarizeOcclusionInfo (("a", ⟨1, 2, [255, 0]⟩) ::
        [("b", ⟨1, 2, [0, 7]⟩)])).total_occlusion ≤
      ((summarizeOcclusionInfo (("a", ⟨1, 2, [255, 0]⟩) ::
        [("b", ⟨1, 2, [0, 7]⟩)])).object_occlusions.map Prod.snd).sum ∧
    0 ≤ (summarizeOcclusionInfo (("a", ⟨1, 2, [255, 0]⟩) ::
        [("b", ⟨1, 2, [0, 7]⟩)])).total_occlusion ∧
    (summarizeOcclusionInfo (("a", ⟨1, 2, [255, 0]⟩) ::
        [("b", ⟨1, 2, [0, 7]⟩)])).total_occlusion ≤ 1 :=
  total_occlusion_bounds "a" ⟨1, 2, [255, 0]⟩ [("b", ⟨1, 2, [0, 7]⟩)]
    rfl (by decide) (by decide)

end SceneEval
